import Mathlib

/-! Mineguard operator console: the report / view state machine.

A shallow embedding of `frontend/src/App.jsx` and `frontend/src/api.js`.

The React component `App` keeps seven state cells (`file`, `loading`, `report`,
`history`, `startDate`, `endDate`, `activeView`).  Every handler of the component
is embedded as a pure function on the record of these cells that also returns the
list of effects it emits (HTTP requests, `alert`, `console.error`).  An `async`
handler is split at its `await`: the part that runs synchronously in the event
handler, and the continuations that run when the promise resolves or rejects.
The JSX returned by `App` is embedded as data (`MainDisplay`, `HistoryRow`), keeping
the metrics row, the status badge, the content area of the viewer, the highlighting of
the history rows and the `disabled` attribute of the analyze button.  The running
component (`Sys`) adds the promises that are outstanding, so that a response can
only arrive for a request that was made.
-/

namespace Mineguard

/-! ## JavaScript values -/

/-- A JavaScript value that may be `undefined`, `null`, or a proper value. -/
inductive JS (α : Type) where
  | undefined : JS α
  | null : JS α
  | val (a : α) : JS α
  deriving DecidableEq, Repr

/-- Numbers carried by the backend JSON. -/
abbrev Num := ℚ

/-- The number formatters of the host, which depend on the locale. -/
structure Fmt where
  toLocaleString : Num → String
  toFixed : Nat → Num → String

/-- Optional call `x?.f()`: `undefined` when `x` is `undefined` or `null`. -/
def JS.optCall {α β : Type} (x : JS α) (f : α → β) : JS β :=
  match x with
  | .val a => .val (f a)
  | _ => .undefined

/-- Truthiness of a string-or-absent value: absent values and `""` are falsy. -/
def JS.truthyStr (x : JS String) : Bool :=
  match x with
  | .val s => s != ""
  | _ => false

/-- Text of `x || 0` once interpolated or rendered: the string itself when it is
truthy, else the text of the number `0`. -/
def JS.orZero (x : JS String) : String :=
  match x with
  | .val s => if s = "" then "0" else s
  | _ => "0"

/-- Comparison `x > 0`: `undefined > 0` and `null > 0` are both `false`. -/
def JS.gtZero (x : JS Num) : Bool :=
  match x with
  | .val q => decide (0 < q)
  | _ => false

/-! ## Data model -/

/-- The `metrics` object of a report. -/
structure Metrics where
  illegal_area_m2 : JS Num
  volume_m3 : JS Num
  avg_depth_m : JS Num
  truckloads : JS Num
  deriving DecidableEq, Repr

/-- The `urls` object of a report; `model3d` is the key `'3d_model'`. -/
structure Urls where
  report : JS String
  map : JS String
  model3d : JS String
  deriving DecidableEq, Repr

/-- A report object: the body of an analyze response, or what `loadFromHistory`
builds. -/
structure Report where
  status : JS String
  job_id : JS String
  metrics : JS Metrics
  urls : JS Urls
  deriving DecidableEq, Repr

/-- One record of the array returned by the history endpoint. -/
structure HistoryEntry where
  id : JS String
  job_id : JS String
  filename : JS String
  created_at : JS String
  illegal_area_m2 : JS Num
  volume_m3 : JS Num
  avg_depth_m : JS Num
  truckloads : JS Num
  report_url : JS String
  map_url : JS String
  model_url : JS String
  deriving DecidableEq, Repr

/-- A file picked in the file input. -/
structure File where
  name : String
  deriving DecidableEq, Repr

/-- The state cells of `App` (the `useState` calls). `file` and `report` are
`none` when the cell holds `null` or `undefined`. -/
structure State where
  file : Option File
  loading : Bool
  report : Option Report
  history : List HistoryEntry
  startDate : String
  endDate : String
  activeView : String
  deriving DecidableEq, Repr

/-- The initial values passed to `useState`. -/
def State.init : State :=
  { file := none, loading := false, report := none, history := [],
    startDate := "2024-01-01", endDate := "2024-04-30", activeView := "3d" }

/-! ## `api.js` -/

/-- A field of a multipart form. -/
inductive FormValue where
  | file (f : File)
  | text (s : String)
  deriving DecidableEq, Repr

/-- An outbound HTTP request made through axios. -/
structure HttpRequest where
  method : String
  url : String
  form : List (String × FormValue)
  deriving DecidableEq, Repr

def API_URL : String := "http://localhost:8000"

/-- The request `uploadFile` posts. -/
def uploadFile (file : File) (startDate endDate : String) : HttpRequest :=
  { method := "POST", url := API_URL ++ "/api/analyze",
    form := [("file", .file file), ("start_date", .text startDate),
             ("end_date", .text endDate)] }

/-- The request `fetchHistory` sends. -/
def fetchHistory : HttpRequest :=
  { method := "GET", url := API_URL ++ "/api/history", form := [] }

/-- What a handler does besides updating state cells. -/
inductive Effect where
  | request (r : HttpRequest)
  | alert (msg : String)
  | consoleError (msg : String)
  deriving DecidableEq, Repr

/-- Is the effect an outbound analyze request? -/
def Effect.isAnalyze : Effect → Bool
  | .request r => r.url == API_URL ++ "/api/analyze"
  | _ => false

/-! ## Handlers of `App` -/

/-- The synchronous part of `loadHistory`: the call of `fetchHistory`. -/
def loadHistory : List Effect := [.request fetchHistory]

/-- The continuation of `loadHistory` once `fetchHistory` resolved with `data`:
`if (data && data.length > 0) setHistory(data)`. -/
def loadHistoryResolved (s : State) (data : JS (List HistoryEntry)) : State :=
  match data with
  | .val d => if d.length > 0 then { s with history := d } else s
  | _ => s

/-- The `catch` branch of `loadHistory`. -/
def loadHistoryRejected (s : State) : State × List Effect :=
  (s, [.consoleError "Failed to load history"])

/-- The handler `handleFileChange`: `setFile(e.target.files[0])`. -/
def handleFileChange (s : State) (f : Option File) : State :=
  { s with file := f }

/-- The `onChange` handler of the start date input. -/
def setStartDate (s : State) (v : String) : State := { s with startDate := v }

/-- The `onChange` handler of the end date input. -/
def setEndDate (s : State) (v : String) : State := { s with endDate := v }

/-- The synchronous part of `handleAnalyze`, up to the `await`:
`if (!file) return; setLoading(true); setReport(null); uploadFile(...)`. -/
def handleAnalyze (s : State) : State × List Effect :=
  match s.file with
  | none => (s, [])
  | some f =>
    ({ s with loading := true, report := none },
     [.request (uploadFile f s.startDate s.endDate)])

/-- The continuation of `handleAnalyze` when `uploadFile` resolved:
`setReport(result); loadHistory();` and then `finally setLoading(false)`. -/
def handleAnalyzeResolved (s : State) (result : Report) : State × List Effect :=
  ({ s with report := some result, loading := false }, loadHistory)

/-- The continuation of `handleAnalyze` when `uploadFile` rejected:
the `alert` of the `catch` branch and then `finally setLoading(false)`. -/
def handleAnalyzeRejected (s : State) (message : String) : State × List Effect :=
  ({ s with loading := false }, [.alert ("Analysis Failed: " ++ message)])

/-- The report object `loadFromHistory` builds from a history item. -/
def reportOfHistory (item : HistoryEntry) : Report :=
  { status := .val "success",
    job_id := item.job_id,
    metrics := .val
      { illegal_area_m2 := item.illegal_area_m2,
        volume_m3 := item.volume_m3,
        avg_depth_m := item.avg_depth_m,
        truckloads := item.truckloads },
    urls := .val
      { report := item.report_url,
        map := item.map_url,
        model3d := item.model_url } }

/-- The handler `loadFromHistory`: `setReport({...})`. -/
def loadFromHistory (s : State) (item : HistoryEntry) : State :=
  { s with report := some (reportOfHistory item) }

/-- The three view tabs. -/
inductive Tab where
  | threeD
  | twoD
  | pdf
  deriving DecidableEq, Repr

/-- The string literal each tab passes to `setActiveView`. -/
def Tab.value : Tab → String
  | .threeD => "3d"
  | .twoD => "2d"
  | .pdf => "pdf"

/-- The `onClick` handler of a view tab. -/
def setActiveView (s : State) (t : Tab) : State := { s with activeView := t.value }

/-! ## The rendered tree -/

/-- The object `{}` that stands in for a missing `metrics`. -/
def Metrics.empty : Metrics :=
  { illegal_area_m2 := .undefined, volume_m3 := .undefined,
    avg_depth_m := .undefined, truckloads := .undefined }

/-- The object `{}` that stands in for a missing `urls`. -/
def Urls.empty : Urls :=
  { report := .undefined, map := .undefined, model3d := .undefined }

/-- The helper `const metrics = report?.metrics || {}`. -/
def metrics (report : Option Report) : Metrics :=
  match report with
  | some r =>
    match r.metrics with
    | .val m => m
    | _ => Metrics.empty
  | none => Metrics.empty

/-- The helper `const urls = report?.urls || {}`. -/
def urls (report : Option Report) : Urls :=
  match report with
  | some r =>
    match r.urls with
    | .val u => u
    | _ => Urls.empty
  | none => Urls.empty

/-- One card of the metrics row. -/
structure Card where
  label : String
  val : String
  deriving DecidableEq, Repr

/-- The array of four stat objects mapped into the metrics row. -/
def metricsRow (F : Fmt) (m : Metrics) : List Card :=
  [ { label := "Detected Illegal Area",
      val := (m.illegal_area_m2.optCall F.toLocaleString).orZero ++ " m²" },
    { label := "Stolen Volume",
      val := (m.volume_m3.optCall F.toLocaleString).orZero ++ " m³" },
    { label := "Avg. Pit Depth",
      val := (m.avg_depth_m.optCall (F.toFixed 2)).orZero ++ " m" },
    { label := "Impact (Truckloads)",
      val := (m.truckloads.optCall F.toLocaleString).orZero } ]

/-- The text of the status badge. -/
def statusBadge (m : Metrics) : String :=
  if m.illegal_area_m2.gtZero then "NON-COMPLIANT" else "COMPLIANT"

/-- An element of the content area. -/
inductive Content where
  | iframe (src : JS String) (title : String)
  | noModel (text : String)
  deriving DecidableEq, Repr

/-- The content area: three blocks, each guarded by `activeView === ...`. -/
def contentArea (activeView : String) (u : Urls) : List Content :=
  (if activeView = "3d" then
    [if u.model3d.truthyStr then Content.iframe u.model3d "3D Model"
     else Content.noModel "No 3D Model Available (Zero Volume detected)"]
   else []) ++
  (if activeView = "2d" then [Content.iframe u.map "Satellite Map"] else []) ++
  (if activeView = "pdf" then [Content.iframe u.report "PDF Report"] else [])

/-- The main display column: `report ? <metrics row and viewer> : <empty state>`. -/
inductive MainDisplay where
  | viewer (cards : List Card) (badge : String) (tabs : List Tab) (content : List Content)
  | ready (heading : String)
  deriving DecidableEq, Repr

/-- The main display column of `App`. -/
def mainDisplay (F : Fmt) (s : State) : MainDisplay :=
  match s.report with
  | some _ =>
    .viewer (metricsRow F (metrics s.report)) (statusBadge (metrics s.report))
      [.threeD, .twoD, .pdf] (contentArea s.activeView (urls s.report))
  | none => .ready "Ready for Analysis"

/-- The test in the `className` of a history row:
`report && report.job_id === item.job_id`. -/
def rowActive (report : Option Report) (item : HistoryEntry) : Bool :=
  match report with
  | some r => decide (r.job_id = item.job_id)
  | none => false

/-- A rendered row of the inspection log. -/
structure HistoryRow where
  item : HistoryEntry
  active : Bool
  deriving DecidableEq, Repr

/-- The inspection log: `history.map(...)`. -/
def historyList (s : State) : List HistoryRow :=
  s.history.map fun item => { item := item, active := rowActive s.report item }

/-- The `disabled` attribute of the analyze button: `!file || loading`. -/
def analyzeDisabled (s : State) : Bool :=
  s.file.isNone || s.loading

/-- A click on the analyze button: its `onClick` is `handleAnalyze`, and a
disabled button dispatches no click. -/
def clickAnalyze (s : State) : State × List Effect :=
  if analyzeDisabled s then (s, []) else handleAnalyze s

/-! ## The running component -/

/-- The component together with its outstanding promises and the effects it has
emitted so far. -/
structure Sys where
  state : State
  pendingAnalyze : Nat
  pendingHistory : Nat
  log : List Effect
  deriving DecidableEq, Repr

/-- Record the outcome of a handler: the new cells and the effects, counting the
requests now outstanding. -/
def Sys.emit (sys : Sys) (r : State × List Effect) : Sys :=
  { state := r.1,
    pendingAnalyze := sys.pendingAnalyze + r.2.countP Effect.isAnalyze,
    pendingHistory := sys.pendingHistory + r.2.count (.request fetchHistory),
    log := sys.log ++ r.2 }

/-- The component after mounting: initial cells, and the `useEffect` that calls
`loadHistory()` once. -/
def Sys.init : Sys :=
  Sys.emit { state := State.init, pendingAnalyze := 0, pendingHistory := 0, log := [] }
    (State.init, loadHistory)

/-- What can happen to the mounted component. -/
inductive Event where
  | fileChange (f : Option File)
  | startDateChange (v : String)
  | endDateChange (v : String)
  | clickAnalyze
  | analyzeResolved (result : Report)
  | analyzeRejected (message : String)
  | historyResolved (data : JS (List HistoryEntry))
  | historyRejected
  | clickHistoryRow (i : Nat)
  | clickTab (t : Tab)
  deriving DecidableEq, Repr

/-- One event. `none` when the event cannot occur: a response with no request
outstanding, a click on a row or a tab that is not rendered. -/
def step (sys : Sys) : Event → Option Sys
  | .fileChange f => some (sys.emit (handleFileChange sys.state f, []))
  | .startDateChange v => some (sys.emit (setStartDate sys.state v, []))
  | .endDateChange v => some (sys.emit (setEndDate sys.state v, []))
  | .clickAnalyze => some (sys.emit (clickAnalyze sys.state))
  | .analyzeResolved result =>
    if sys.pendingAnalyze = 0 then none
    else some ({ sys with pendingAnalyze := sys.pendingAnalyze - 1 }.emit
      (handleAnalyzeResolved sys.state result))
  | .analyzeRejected message =>
    if sys.pendingAnalyze = 0 then none
    else some ({ sys with pendingAnalyze := sys.pendingAnalyze - 1 }.emit
      (handleAnalyzeRejected sys.state message))
  | .historyResolved data =>
    if sys.pendingHistory = 0 then none
    else some ({ sys with pendingHistory := sys.pendingHistory - 1 }.emit
      (loadHistoryResolved sys.state data, []))
  | .historyRejected =>
    if sys.pendingHistory = 0 then none
    else some ({ sys with pendingHistory := sys.pendingHistory - 1 }.emit
      (loadHistoryRejected sys.state))
  | .clickHistoryRow i =>
    match sys.state.history[i]? with
    | some item => some (sys.emit (loadFromHistory sys.state item, []))
    | none => none
  | .clickTab t =>
    match sys.state.report with
    | some _ => some (sys.emit (setActiveView sys.state t, []))
    | none => none

/-- A sequence of events, from left to right. -/
def run (sys : Sys) : List Event → Option Sys
  | [] => some sys
  | e :: es => (step sys e).bind fun sys' => run sys' es

/-- The value of `activeView` after an event, given its value before. -/
def viewAfter (v : String) : Event → String
  | .clickTab t => t.value
  | _ => v

/-- Events other than the start and the completion of an analysis. -/
def Event.isOther : Event → Bool
  | .clickAnalyze => false
  | .analyzeResolved _ => false
  | .analyzeRejected _ => false
  | _ => true

/-- Is the event a click on a history row? -/
def Event.isRowClick : Event → Bool
  | .clickHistoryRow _ => true
  | _ => false


/-! ## Scenario data -/

/-- The file of the scenario. -/
def siteKml : File := { name := "site.kml" }

/-- The success response of the first scenario. -/
def responseJ1 : Report :=
  { status := .val "success", job_id := .val "J1",
    metrics := .val
      { illegal_area_m2 := .val 500, volume_m3 := .val 1200,
        avg_depth_m := .val 3.5, truckloads := .val 80 },
    urls := .val
      { report := .val "r.pdf", map := .val "m.html", model3d := .val "3d.html" } }

/-- The success response of the second scenario: zero volume, no `3d_model` key. -/
def responseZeroVolume : Report :=
  { status := .val "success", job_id := .val "J1",
    metrics := .val
      { illegal_area_m2 := .val 500, volume_m3 := .val 0,
        avg_depth_m := .val 3.5, truckloads := .val 80 },
    urls := .val
      { report := .val "r.pdf", map := .val "m.html", model3d := .undefined } }

/-- A success response whose `metrics` object lacks `truckloads`. -/
def responseNoTruckloads : Report :=
  { status := .val "success", job_id := .val "J2",
    metrics := .val
      { illegal_area_m2 := .val 500, volume_m3 := .val 1200,
        avg_depth_m := .val 3.5, truckloads := .undefined },
    urls := .val
      { report := .val "r.pdf", map := .val "m.html", model3d := .val "3d.html" } }

/-- A success response with no `metrics` object at all. -/
def responseNoMetrics : Report :=
  { status := .val "success", job_id := .val "J3", metrics := .undefined,
    urls := .val
      { report := .val "r.pdf", map := .val "m.html", model3d := .val "3d.html" } }

/-- A history record. -/
def entryH1 : HistoryEntry :=
  { id := .val "1", job_id := .val "H1", filename := .val "old.kml",
    created_at := .val "2024-05-01T10:00:00", illegal_area_m2 := .val 10,
    volume_m3 := .val 20, avg_depth_m := .val 2, truckloads := .val 3,
    report_url := .val "h.pdf", map_url := .val "h.html", model_url := .val "h3d.html" }

/-- A formatter used to evaluate the rendering on concrete inputs: it prints every
number as a fixed mark. -/
def plainFmt : Fmt :=
  { toLocaleString := fun _ => "#",
    toFixed := fun _ _ => "#.##" }

/-- A populated state with a file selected and nothing in flight. -/
def populatedIdle : State :=
  { State.init with file := some siteKml, report := some responseJ1,
                    history := [entryH1], activeView := "pdf" }

/-- The trace of the first scenario: pick the file, click analyze, and the request
resolves with `responseJ1`. -/
def scenarioJ1 : List Event :=
  [.fileChange (some siteKml), .startDateChange "2024-01-01", .endDateChange "2024-04-30",
   .clickAnalyze, .analyzeResolved responseJ1]

/-- The trace of the second scenario: as the first, with zero volume and no model. -/
def scenarioZeroVolume : List Event :=
  [.fileChange (some siteKml), .startDateChange "2024-01-01", .endDateChange "2024-04-30",
   .clickAnalyze, .analyzeResolved responseZeroVolume]

/-- The placeholder of the 3D view. -/
def noModelPlaceholder : Content :=
  .noModel "No 3D Model Available (Zero Volume detected)"

/-- A state showing `responseJ1` in the 3D view. -/
def showingJ1 : State :=
  { State.init with file := some siteKml, report := some responseJ1 }

/-- A trace that leaves an analysis in flight with a history report on display:
the first history snapshot arrives, a file is picked, analyze is clicked, and the
first history row is clicked. -/
def busyTrace : List Event :=
  [.historyResolved (.val [entryH1]), .fileChange (some siteKml), .clickAnalyze,
   .clickHistoryRow 0]

/-- The state cells at the end of `busyTrace`. -/
def busyState : State :=
  { State.init with file := some siteKml, loading := true,
                    report := some (reportOfHistory entryH1), history := [entryH1] }

/-- The component once the first history snapshot arrived and a file was picked. -/
def readySys : Sys :=
  { state := { State.init with file := some siteKml, history := [entryH1] },
    pendingAnalyze := 0, pendingHistory := 0, log := [.request fetchHistory] }

/-- The component after a click on analyze and then on the first history row. -/
def busySys : Sys :=
  { state := busyState, pendingAnalyze := 1, pendingHistory := 0,
    log := [.request fetchHistory,
            .request (uploadFile siteKml "2024-01-01" "2024-04-30")] }

/-- A trace whose last history refresh returns the empty array. -/
def emptyRefreshTrace : List Event :=
  [.historyResolved (.val [entryH1]), .fileChange (some siteKml), .clickAnalyze,
   .analyzeResolved responseJ1, .historyResolved (.val [])]

/-- A trace whose analysis resolves with a response lacking `truckloads`. -/
def noTruckloadsTrace : List Event :=
  [.fileChange (some siteKml), .clickAnalyze, .analyzeResolved responseNoTruckloads]

/-- A trace whose analysis resolves with a response lacking `metrics`. -/
def noMetricsTrace : List Event :=
  [.fileChange (some siteKml), .clickAnalyze, .analyzeResolved responseNoMetrics]

/-- A trace that switches the view twice around an analysis. -/
def tabTrace : List Event :=
  [.historyResolved (.val [entryH1]), .clickHistoryRow 0, .clickTab .pdf,
   .fileChange (some siteKml), .clickAnalyze, .analyzeResolved responseJ1,
   .clickTab .twoD, .historyRejected]

/-! ## Helper lemmas -/

theorem metricsRow_empty (F : Fmt) :
    metricsRow F Metrics.empty =
      [ { label := "Detected Illegal Area", val := "0 m²" },
        { label := "Stolen Volume", val := "0 m³" },
        { label := "Avg. Pit Depth", val := "0 m" },
        { label := "Impact (Truckloads)", val := "0" } ] := by
  simp [metricsRow, Metrics.empty, JS.optCall, JS.orZero]

/-! ## Lemmas about traces -/

theorem run_cons (sys : Sys) (e : Event) (es : List Event) :
    run sys (e :: es) = (step sys e).bind fun sys' => run sys' es := rfl

theorem step_activeView (a b : Sys) (e : Event) (h : step a e = some b) :
    b.state.activeView = viewAfter a.state.activeView e := by
  cases e <;> simp only [step] at h
  case fileChange f => cases h; rfl
  case startDateChange v => cases h; rfl
  case endDateChange v => cases h; rfl
  case clickAnalyze =>
    cases h
    simp only [Sys.emit, clickAnalyze, handleAnalyze, viewAfter]
    split
    · rfl
    · split <;> rfl
  case analyzeResolved r => split at h <;> cases h; rfl
  case analyzeRejected m => split at h <;> cases h; rfl
  case historyResolved d =>
    split at h <;> cases h
    simp only [Sys.emit, loadHistoryResolved, viewAfter]
    split
    · split <;> rfl
    · rfl
  case historyRejected => split at h <;> cases h; rfl
  case clickHistoryRow i => split at h <;> cases h; rfl
  case clickTab t => split at h <;> cases h; rfl

theorem run_activeView (evs : List Event) (a b : Sys) (h : run a evs = some b) :
    b.state.activeView = evs.foldl viewAfter a.state.activeView := by
  induction evs generalizing a with
  | nil => simp only [run, Option.some.injEq] at h; subst h; rfl
  | cons e es ih =>
    rw [run_cons] at h
    cases hs : step a e with
    | none => simp [hs] at h
    | some c =>
      simp only [hs, Option.some_bind] at h
      rw [ih c h, step_activeView a c e hs]
      rfl

theorem viewAfter_mem (v : String) (e : Event) (hv : v ∈ ["3d", "2d", "pdf"]) :
    viewAfter v e ∈ ["3d", "2d", "pdf"] := by
  cases e <;> try exact hv
  case clickTab t => cases t <;> simp [viewAfter, Tab.value]

theorem foldl_viewAfter_mem (evs : List Event) (v : String) (hv : v ∈ ["3d", "2d", "pdf"]) :
    evs.foldl viewAfter v ∈ ["3d", "2d", "pdf"] := by
  induction evs generalizing v with
  | nil => exact hv
  | cons e es ih => exact ih _ (viewAfter_mem v e hv)

theorem emit_nil (sys : Sys) : sys.emit (sys.state, []) = sys := by
  cases sys; simp [Sys.emit]

theorem countP_isAnalyze_loadHistory : loadHistory.countP Effect.isAnalyze = 0 := by decide

theorem isAnalyze_uploadFile (f : File) (a b : String) :
    Effect.isAnalyze (.request (uploadFile f a b)) = true := by
  simp [Effect.isAnalyze, uploadFile]

theorem step_pending (a b : Sys) (e : Event) (h : step a e = some b)
    (ha : a.pendingAnalyze = if a.state.loading then 1 else 0) :
    b.pendingAnalyze = if b.state.loading then 1 else 0 := by
  cases e <;> simp only [step] at h
  case fileChange f => cases h; simpa [Sys.emit, handleFileChange] using ha
  case startDateChange v => cases h; simpa [Sys.emit, setStartDate] using ha
  case endDateChange v => cases h; simpa [Sys.emit, setEndDate] using ha
  case clickAnalyze =>
    cases h
    by_cases hd : analyzeDisabled a.state = true
    · simpa [Sys.emit, clickAnalyze, hd] using ha
    · have hd' := hd
      simp only [analyzeDisabled, Bool.or_eq_true, not_or, Bool.not_eq_true] at hd'
      obtain ⟨hf, hl⟩ := hd'
      cases hfile : a.state.file with
      | none => simp [hfile] at hf
      | some f =>
        simp [Sys.emit, clickAnalyze, hd, handleAnalyze, hfile, isAnalyze_uploadFile, ha, hl]
  case analyzeResolved r =>
    split at h
    · cases h
    · rename_i hp
      cases h
      cases hl : a.state.loading with
      | false => simp [hl] at ha; exact absurd ha hp
      | true =>
        simp only [hl, if_true] at ha
        simp [Sys.emit, handleAnalyzeResolved, ha, countP_isAnalyze_loadHistory]
  case analyzeRejected m =>
    split at h
    · cases h
    · rename_i hp
      cases h
      cases hl : a.state.loading with
      | false => simp [hl] at ha; exact absurd ha hp
      | true =>
        simp only [hl, if_true] at ha
        simp [Sys.emit, handleAnalyzeRejected, ha, Effect.isAnalyze]
  case historyResolved d =>
    split at h
    · cases h
    · cases h
      have : (loadHistoryResolved a.state d).loading = a.state.loading := by
        simp only [loadHistoryResolved]
        split
        · split <;> rfl
        · rfl
      simpa [Sys.emit, this] using ha
  case historyRejected =>
    split at h
    · cases h
    · cases h
      simpa [Sys.emit, loadHistoryRejected, Effect.isAnalyze] using ha
  case clickHistoryRow i =>
    split at h
    · cases h; simpa [Sys.emit, loadFromHistory] using ha
    · cases h
  case clickTab t =>
    split at h
    · cases h; simpa [Sys.emit, setActiveView] using ha
    · cases h

theorem run_pending (evs : List Event) (a b : Sys) (h : run a evs = some b)
    (ha : a.pendingAnalyze = if a.state.loading then 1 else 0) :
    b.pendingAnalyze = if b.state.loading then 1 else 0 := by
  induction evs generalizing a with
  | nil => simp only [run, Option.some.injEq] at h; subst h; exact ha
  | cons e es ih =>
    rw [run_cons] at h
    cases hs : step a e with
    | none => simp [hs] at h
    | some c =>
      simp only [hs, Option.some_bind] at h
      exact ih c h (step_pending a c e hs ha)

theorem init_pending : Sys.init.pendingAnalyze = if Sys.init.state.loading then 1 else 0 := by
  decide

theorem step_report (a b : Sys) (e : Event) (h : step a e = some b) :
    b.state.report = a.state.report ∨ b.state.report = none ∨
    (∃ res, e = .analyzeResolved res ∧ b.state.report = some res) ∨
    (∃ item, b.state.report = some (reportOfHistory item)) := by
  cases e <;> simp only [step] at h
  case fileChange f => cases h; exact .inl rfl
  case startDateChange v => cases h; exact .inl rfl
  case endDateChange v => cases h; exact .inl rfl
  case clickAnalyze =>
    cases h
    simp only [Sys.emit, clickAnalyze, handleAnalyze]
    split
    · exact .inl rfl
    · split
      · exact .inl rfl
      · exact .inr (.inl rfl)
  case analyzeResolved r =>
    split at h <;> cases h
    exact .inr (.inr (.inl ⟨r, rfl, rfl⟩))
  case analyzeRejected m => split at h <;> cases h; exact .inl rfl
  case historyResolved d =>
    split at h <;> cases h
    left
    simp only [Sys.emit, loadHistoryResolved]
    split
    · split <;> rfl
    · rfl
  case historyRejected => split at h <;> cases h; exact .inl rfl
  case clickHistoryRow i =>
    split at h <;> cases h
    rename_i item _
    exact .inr (.inr (.inr ⟨item, rfl⟩))
  case clickTab t => split at h <;> cases h; exact .inl rfl

theorem run_report (evs : List Event) (a b : Sys) (h : run a evs = some b) :
    b.state.report = a.state.report ∨ b.state.report = none ∨
    (∃ res, .analyzeResolved res ∈ evs ∧ b.state.report = some res) ∨
    (∃ item, b.state.report = some (reportOfHistory item)) := by
  induction evs generalizing a with
  | nil => simp only [run, Option.some.injEq] at h; subst h; exact .inl rfl
  | cons e es ih =>
    rw [run_cons] at h
    cases hs : step a e with
    | none => simp [hs] at h
    | some c =>
      simp only [hs, Option.some_bind] at h
      rcases ih c h with h1 | h1 | ⟨res, hm, h1⟩ | h1
      · rcases step_report a c e hs with h2 | h2 | ⟨res, he, h2⟩ | ⟨item, h2⟩
        · exact .inl (h1.trans h2)
        · exact .inr (.inl (h1.trans h2))
        · exact .inr (.inr (.inl ⟨res, by simp [he], h1.trans h2⟩))
        · exact .inr (.inr (.inr ⟨item, h1.trans h2⟩))
      · exact .inr (.inl h1)
      · exact .inr (.inr (.inl ⟨res, List.mem_cons_of_mem _ hm, h1⟩))
      · exact .inr (.inr (.inr h1))

theorem step_other (a b : Sys) (e : Event) (h : step a e = some b) (he : e.isOther = true) :
    b.pendingAnalyze = a.pendingAnalyze ∧ b.state.loading = a.state.loading ∧
    (b.state.report = a.state.report ∨
      (e.isRowClick = true ∧ ∃ item, b.state.report = some (reportOfHistory item))) := by
  cases e <;> simp only [step] at h <;> simp only [Event.isOther, Bool.false_eq_true] at he
  case fileChange f => cases h; simp [Sys.emit, handleFileChange]
  case startDateChange v => cases h; simp [Sys.emit, setStartDate]
  case endDateChange v => cases h; simp [Sys.emit, setEndDate]
  case historyResolved d =>
    split at h <;> cases h
    have : loadHistoryResolved a.state d = { a.state with
        history := (loadHistoryResolved a.state d).history } := by
      simp only [loadHistoryResolved]
      split
      · split <;> rfl
      · rfl
    rw [Sys.emit, this]
    simp [Effect.isAnalyze]
  case historyRejected =>
    split at h <;> cases h
    simp [Sys.emit, loadHistoryRejected, Effect.isAnalyze]
  case clickHistoryRow i =>
    split at h <;> cases h
    rename_i item _
    refine ⟨by simp [Sys.emit], rfl, .inr ⟨rfl, item, rfl⟩⟩
  case clickTab t =>
    split at h <;> cases h
    simp [Sys.emit, setActiveView]

theorem run_other (ops : List Event) (a b : Sys) (h : run a ops = some b)
    (hops : ∀ e ∈ ops, e.isOther = true) :
    b.pendingAnalyze = a.pendingAnalyze ∧ b.state.loading = a.state.loading ∧
    (b.state.report = a.state.report ∨ ∃ item, b.state.report = some (reportOfHistory item)) ∧
    (ops.any Event.isRowClick = false → b.state.report = a.state.report) := by
  induction ops generalizing a with
  | nil =>
    simp only [run, Option.some.injEq] at h; subst h
    exact ⟨rfl, rfl, .inl rfl, fun _ => rfl⟩
  | cons e es ih =>
    rw [run_cons] at h
    cases hs : step a e with
    | none => simp [hs] at h
    | some c =>
      simp only [hs, Option.some_bind] at h
      obtain ⟨p1, l1, r1⟩ := step_other a c e hs (hops e (List.mem_cons_self _ _))
      obtain ⟨p2, l2, r2, n2⟩ := ih c h (fun x hx => hops x (List.mem_cons_of_mem _ hx))
      refine ⟨p2.trans p1, l2.trans l1, ?_, ?_⟩
      · rcases r2 with r2 | r2
        · rcases r1 with r1 | ⟨_, r1⟩
          · exact .inl (r2.trans r1)
          · obtain ⟨item, hi⟩ := r1
            exact .inr ⟨item, r2.trans hi⟩
        · exact .inr r2
      · intro hn
        simp only [List.any_cons, Bool.or_eq_false_iff] at hn
        rcases r1 with r1 | ⟨hc, _⟩
        · exact (n2 hn.2).trans r1
        · rw [hn.1] at hc; cases hc

theorem metricsRow_defaults (F : Fmt) (r : Report) :
    (r.metrics = .undefined ∨ r.metrics = .null →
      (metricsRow F (metrics (some r))).map Card.val = ["0 m²", "0 m³", "0 m", "0"]) ∧
    (∀ m, r.metrics = .val m →
      (m.illegal_area_m2 = .undefined ∨ m.illegal_area_m2 = .null →
        (metricsRow F (metrics (some r)))[0]?.map Card.val = some "0 m²") ∧
      (m.volume_m3 = .undefined ∨ m.volume_m3 = .null →
        (metricsRow F (metrics (some r)))[1]?.map Card.val = some "0 m³") ∧
      (m.avg_depth_m = .undefined ∨ m.avg_depth_m = .null →
        (metricsRow F (metrics (some r)))[2]?.map Card.val = some "0 m") ∧
      (m.truckloads = .undefined ∨ m.truckloads = .null →
        (metricsRow F (metrics (some r)))[3]?.map Card.val = some "0")) := by
  refine ⟨?_, ?_⟩
  · intro h
    rcases h with h | h <;> simp [metrics, h, metricsRow_empty]
  · intro m h
    refine ⟨?_, ?_, ?_, ?_⟩ <;> intro hf <;> rcases hf with hf | hf <;>
      simp [metrics, h, metricsRow, hf, JS.optCall, JS.orZero]

/-! ## Theorems about single handlers and the rendered tree -/

/-- C5. For every history entry `h`, `loadFromHistory` sets `report` to the object
with `status = "success"`, `job_id = h.job_id`, the four metrics of `h` and the three
urls of `h` (`report_url`, `map_url`, `model_url`); it leaves `activeView`, `history`
and `loading` (and `file` and the dates) unchanged, and selecting the same entry a
second time gives the same state as selecting it once. -/
theorem loadFromHistory_normalizes (s : State) (h : HistoryEntry) :
    (loadFromHistory s h).report = some
      { status := .val "success",
        job_id := h.job_id,
        metrics := .val
          { illegal_area_m2 := h.illegal_area_m2, volume_m3 := h.volume_m3,
            avg_depth_m := h.avg_depth_m, truckloads := h.truckloads },
        urls := .val
          { report := h.report_url, map := h.map_url, model3d := h.model_url } } ∧
    (loadFromHistory s h).activeView = s.activeView ∧
    (loadFromHistory s h).history = s.history ∧
    (loadFromHistory s h).loading = s.loading ∧
    (loadFromHistory s h).file = s.file ∧
    (loadFromHistory s h).startDate = s.startDate ∧
    (loadFromHistory s h).endDate = s.endDate ∧
    loadFromHistory (loadFromHistory s h) h = loadFromHistory s h :=
  ⟨rfl, rfl, rfl, rfl, rfl, rfl, rfl, rfl⟩

/-- C6. A history row is rendered active exactly when `report` is present and the
row's `job_id` equals the report's `job_id`; with `report` absent no row is active;
the rows are the history items in order, and the active rows are exactly the items
whose `job_id` matches. -/
theorem rowActive_iff (s : State) (item : HistoryEntry) :
    (rowActive s.report item = true ↔ ∃ r, s.report = some r ∧ item.job_id = r.job_id) ∧
    rowActive none item = false ∧
    (historyList s).map HistoryRow.item = s.history ∧
    ((historyList s).filter HistoryRow.active).map HistoryRow.item =
      s.history.filter (fun it => rowActive s.report it) ∧
    (historyList { s with report := none }).filter HistoryRow.active = [] := by
  refine ⟨?_, rfl, ?_, ?_, ?_⟩
  · cases hr : s.report with
    | none => simp [rowActive]
    | some r =>
      simp only [rowActive, decide_eq_true_eq, Option.some.injEq, exists_eq_left']
      exact eq_comm
  · simp [historyList, Function.comp_def]
  · simp [historyList, List.filter_map, Function.comp_def]
  · simp [historyList, rowActive, List.filter_map, Function.comp_def]

/-- C9. In a state with a file selected and no analysis in flight, whatever `report`
holds, `handleAnalyze` (and a click on the analyze button) gives, before any response,
a state with `loading = true` and `report` absent, with `file`, the dates, `history`
and `activeView` unchanged; it emits exactly one analyze request, and the display
shows the empty state. -/
theorem handleAnalyze_clears_immediately (F : Fmt) (s : State) (f : File)
    (hf : s.file = some f) (hl : s.loading = false) :
    (handleAnalyze s).1.loading = true ∧
    (handleAnalyze s).1.report = none ∧
    (handleAnalyze s).1.file = s.file ∧
    (handleAnalyze s).1.startDate = s.startDate ∧
    (handleAnalyze s).1.endDate = s.endDate ∧
    (handleAnalyze s).1.history = s.history ∧
    (handleAnalyze s).1.activeView = s.activeView ∧
    (handleAnalyze s).2 = [.request (uploadFile f s.startDate s.endDate)] ∧
    clickAnalyze s = handleAnalyze s ∧
    mainDisplay F (handleAnalyze s).1 = .ready "Ready for Analysis" := by
  simp [handleAnalyze, clickAnalyze, analyzeDisabled, mainDisplay, hf, hl]

theorem handleAnalyze_clears_immediately_witness :
    populatedIdle.file = some siteKml ∧ populatedIdle.loading = false ∧
    (handleAnalyze populatedIdle).1.loading = true ∧
    (handleAnalyze populatedIdle).1.report = none :=
  ⟨rfl, rfl,
   (handleAnalyze_clears_immediately plainFmt populatedIdle siteKml rfl rfl).1,
   (handleAnalyze_clears_immediately plainFmt populatedIdle siteKml rfl rfl).2.1⟩

/-- C7. With a report on display and `activeView = "3d"`, the content area holds one
element: the iframe on `urls['3d_model']` when that url is present (a non-empty
string, the test being JavaScript truthiness), and the placeholder "No 3D Model
Available (Zero Volume detected)" when it is `undefined` or `null` or when the report
has no `urls` object; it is never an iframe with an absent source. In the scenario
with `3d_model = "3d.html"` the pane embeds `3d.html`, and in the zero volume scenario
without the key it shows the placeholder. -/
theorem contentArea_3d_rule (F : Fmt) (s : State) (r : Report)
    (hr : s.report = some r) (hv : s.activeView = "3d") :
    (∃ c, mainDisplay F s =
        .viewer (metricsRow F (metrics s.report)) (statusBadge (metrics s.report))
          [.threeD, .twoD, .pdf] [c] ∧
      (c = noModelPlaceholder ∨ ∃ src, src ≠ "" ∧ c = .iframe (.val src) "3D Model") ∧
      (∀ u src, r.urls = .val u → u.model3d = .val src → src ≠ "" →
        c = .iframe (.val src) "3D Model") ∧
      (∀ u, r.urls = .val u → u.model3d = .undefined ∨ u.model3d = .null →
        c = noModelPlaceholder) ∧
      (r.urls = .undefined ∨ r.urls = .null → c = noModelPlaceholder)) ∧
    (run Sys.init scenarioJ1).map (fun sys => contentArea sys.state.activeView
      (urls sys.state.report)) = some [.iframe (.val "3d.html") "3D Model"] ∧
    (run Sys.init scenarioZeroVolume).map (fun sys => contentArea sys.state.activeView
      (urls sys.state.report)) = some [noModelPlaceholder] := by
  refine ⟨?_, by decide, by decide⟩
  refine ⟨if (urls s.report).model3d.truthyStr then .iframe (urls s.report).model3d "3D Model"
      else noModelPlaceholder, ?_, ?_, ?_, ?_, ?_⟩
  · simp [mainDisplay, hr, hv, contentArea, noModelPlaceholder]
  · cases hm : (urls s.report).model3d with
    | undefined => simp [JS.truthyStr]
    | null => simp [JS.truthyStr]
    | val src =>
      by_cases hs : src = ""
      · simp [JS.truthyStr, hs]
      · simp [JS.truthyStr, hs]
  · intro u src hu hm hs
    simp [urls, hr, hu, hm, JS.truthyStr, hs]
  · intro u hu hm
    rcases hm with hm | hm <;> simp [urls, hr, hu, hm, JS.truthyStr]
  · intro hu
    rcases hu with hu | hu <;> simp [urls, hr, hu, Urls.empty, JS.truthyStr]

theorem contentArea_3d_rule_witness :
    showingJ1.report = some responseJ1 ∧ showingJ1.activeView = "3d" ∧
    (run Sys.init scenarioJ1).map (fun sys => contentArea sys.state.activeView
      (urls sys.state.report)) = some [.iframe (.val "3d.html") "3D Model"] :=
  ⟨rfl, rfl, (contentArea_3d_rule plainFmt showingJ1 responseJ1 rfl rfl).2.1⟩

/-- C8. With a report on display, the metrics row has its four cards whatever the
report holds; when the `metrics` object is missing (`undefined` or `null`) every card
shows `0` with its unit, and when a single field is `undefined` or `null` its card
shows `0` with its unit. The row is a total function of the report: computing it
cannot fail. -/
theorem metricsRow_default_defense (F : Fmt) (r : Report) (m : Metrics) :
    (metricsRow F (metrics (some r))).map Card.label =
      ["Detected Illegal Area", "Stolen Volume", "Avg. Pit Depth",
       "Impact (Truckloads)"] ∧
    (∃ cards badge tabs content,
      mainDisplay F { State.init with report := some r } = .viewer cards badge tabs content ∧
      cards = metricsRow F (metrics (some r)) ∧ cards.length = 4) ∧
    (r.metrics = .undefined ∨ r.metrics = .null →
      (metricsRow F (metrics (some r))).map Card.val = ["0 m²", "0 m³", "0 m", "0"]) ∧
    (r.metrics = .val m →
      (m.illegal_area_m2 = .undefined ∨ m.illegal_area_m2 = .null →
        (metricsRow F (metrics (some r)))[0]?.map Card.val = some "0 m²") ∧
      (m.volume_m3 = .undefined ∨ m.volume_m3 = .null →
        (metricsRow F (metrics (some r)))[1]?.map Card.val = some "0 m³") ∧
      (m.avg_depth_m = .undefined ∨ m.avg_depth_m = .null →
        (metricsRow F (metrics (some r)))[2]?.map Card.val = some "0 m") ∧
      (m.truckloads = .undefined ∨ m.truckloads = .null →
        (metricsRow F (metrics (some r)))[3]?.map Card.val = some "0")) :=
  ⟨rfl, ⟨_, _, _, _, rfl, rfl, rfl⟩, (metricsRow_defaults F r).1,
   (metricsRow_defaults F r).2 m⟩

theorem metricsRow_default_defense_witness :
    (metricsRow plainFmt (metrics (some responseNoMetrics))).map Card.val =
      ["0 m²", "0 m³", "0 m", "0"] ∧
    (metricsRow plainFmt (metrics (some responseNoTruckloads))).map Card.val =
      ["# m²", "# m³", "#.## m", "0"] :=
  ⟨(metricsRow_default_defense plainFmt responseNoMetrics Metrics.empty).2.2.1 (.inl rfl),
   by decide⟩

/-- C2 (as amended). When `fetchHistory` resolves with a non-empty array, `history`
becomes exactly that array; when it resolves with the empty array (or `null` or
`undefined`) the previous `history` is kept; no other state cell changes. -/
theorem loadHistoryResolved_replaces_nonempty (s : State) (d : List HistoryEntry) :
    (loadHistoryResolved s (.val d)).history = (if d = [] then s.history else d) ∧
    loadHistoryResolved s (.val []) = s ∧
    loadHistoryResolved s .null = s ∧
    loadHistoryResolved s .undefined = s ∧
    loadHistoryResolved s (.val d) = { s with history := (loadHistoryResolved s (.val d)).history } := by
  refine ⟨?_, rfl, rfl, rfl, ?_⟩
  · cases d with
    | nil => simp [loadHistoryResolved]
    | cons a t => simp [loadHistoryResolved]
  · cases d with
    | nil => simp [loadHistoryResolved]
    | cons a t => simp [loadHistoryResolved]

/-! ## Theorems about the running component -/

/-- C1 (as amended). In every reachable state the number of analyze requests in
flight is 1 when `loading` holds and 0 otherwise. While `loading` holds the analyze
button is disabled, so a click on it emits nothing and changes no state cell; and
`handleAnalyze` itself emits nothing and changes nothing when no file is selected.
(`handleAnalyze` does not test `loading`.) -/
theorem analyze_admission (evs : List Event) (sys : Sys) (s : State)
    (h : run Sys.init evs = some sys) :
    (sys.pendingAnalyze = if sys.state.loading then 1 else 0) ∧
    (sys.state.loading = true → step sys .clickAnalyze = some sys) ∧
    (s.loading = true → analyzeDisabled s = true ∧ clickAnalyze s = (s, [])) ∧
    (s.file = none → handleAnalyze s = (s, []) ∧ clickAnalyze s = (s, [])) := by
  refine ⟨run_pending evs _ _ h init_pending, ?_, ?_, ?_⟩
  · intro hl
    simp [step, clickAnalyze, analyzeDisabled, hl, emit_nil]
  · intro hl
    simp [clickAnalyze, analyzeDisabled, hl]
  · intro hf
    simp [clickAnalyze, handleAnalyze, hf]

theorem analyze_admission_witness :
    run Sys.init busyTrace = some busySys ∧ busySys.pendingAnalyze = 1 ∧
    step busySys .clickAnalyze = some busySys :=
  ⟨by decide, by decide,
   (analyze_admission busyTrace busySys busyState (by decide)).2.1 rfl⟩

/-- C1, counterexample. At the end of `busyTrace` a file is selected and an analysis
is in flight; `handleAnalyze` called in that state emits a second analyze request and
clears `report`. -/
theorem handleAnalyze_while_loading :
    (run Sys.init busyTrace).map Sys.state = some busyState ∧
    busyState.loading = true ∧
    handleAnalyze busyState =
      ({ busyState with report := none },
       [.request (uploadFile siteKml "2024-01-01" "2024-04-30")]) ∧
    (handleAnalyze busyState).1 ≠ busyState := by
  decide

/-- C2, counterexample. After a refresh that returned one entry, a later refresh
resolves with the empty array, and `history` still holds the one entry. -/
theorem empty_snapshot_not_applied :
    (run Sys.init emptyRefreshTrace).map (fun sys => sys.state.history) = some [entryH1] ∧
    (loadHistoryResolved busyState (.val [])).history = [entryH1] := by
  decide

/-- C3 (as amended). In every reachable state `report` is absent, or it is the body of
an analyze response of the trace stored as received, or it is the object
`loadFromHistory` builds from a history item; omitted metric fields are not filled in
the stored report. The defaulting happens in the rendering: whenever a report is
present the metrics row has its four cards, all of them show `0` when the `metrics`
object is missing, and the card of any omitted field shows `0`. -/
theorem report_invariant (F : Fmt) (evs : List Event) (sys : Sys)
    (h : run Sys.init evs = some sys) :
    (sys.state.report = none ∨
      (∃ res, .analyzeResolved res ∈ evs ∧ sys.state.report = some res) ∨
      (∃ item, sys.state.report = some (reportOfHistory item))) ∧
    (∀ r, sys.state.report = some r →
      (∃ badge content, mainDisplay F sys.state =
        .viewer (metricsRow F (metrics (some r))) badge [.threeD, .twoD, .pdf] content) ∧
      (metricsRow F (metrics (some r))).map Card.label =
        ["Detected Illegal Area", "Stolen Volume", "Avg. Pit Depth",
         "Impact (Truckloads)"] ∧
      (r.metrics = .undefined ∨ r.metrics = .null →
        (metricsRow F (metrics (some r))).map Card.val = ["0 m²", "0 m³", "0 m", "0"]) ∧
      (∀ m, r.metrics = .val m →
        (m.illegal_area_m2 = .undefined ∨ m.illegal_area_m2 = .null →
          (metricsRow F (metrics (some r)))[0]?.map Card.val = some "0 m²") ∧
        (m.volume_m3 = .undefined ∨ m.volume_m3 = .null →
          (metricsRow F (metrics (some r)))[1]?.map Card.val = some "0 m³") ∧
        (m.avg_depth_m = .undefined ∨ m.avg_depth_m = .null →
          (metricsRow F (metrics (some r)))[2]?.map Card.val = some "0 m") ∧
        (m.truckloads = .undefined ∨ m.truckloads = .null →
          (metricsRow F (metrics (some r)))[3]?.map Card.val = some "0"))) := by
  refine ⟨?_, ?_⟩
  · rcases run_report evs _ _ h with h1 | h1 | h1 | h1
    · exact .inl h1
    · exact .inl h1
    · exact .inr (.inl h1)
    · exact .inr (.inr h1)
  · intro r hr
    refine ⟨⟨statusBadge (metrics (some r)), contentArea sys.state.activeView (urls (some r)),
      ?_⟩, rfl, (metricsRow_defaults F r).1, (metricsRow_defaults F r).2⟩
    simp only [mainDisplay, hr]

theorem report_invariant_witness :
    (run Sys.init noTruckloadsTrace).map (fun sys => sys.state.report) =
      some (some responseNoTruckloads) ∧
    (metricsRow plainFmt (metrics (some responseNoTruckloads)))[3]?.map Card.val =
      some "0" :=
  ⟨rfl,
   (((report_invariant plainFmt noTruckloadsTrace
      { state := { State.init with file := some siteKml,
                                   report := some responseNoTruckloads },
        pendingAnalyze := 0, pendingHistory := 2,
        log := [.request fetchHistory,
                .request (uploadFile siteKml "2024-01-01" "2024-04-30"),
                .request fetchHistory] }
      rfl).2 responseNoTruckloads rfl).2.2.2 _ rfl).2.2.2 (.inl rfl)⟩

/-- C3, counterexample. An analysis resolves with a response that lacks `truckloads`:
the stored report holds `truckloads` undefined, not 0; and with a response that lacks
`metrics` the stored report has no `metrics` object. -/
theorem stored_report_not_defaulted :
    (run Sys.init noTruckloadsTrace).map (fun sys =>
        sys.state.report.map Report.metrics) =
      some (some (.val
        { illegal_area_m2 := .val 500, volume_m3 := .val 1200,
          avg_depth_m := .val 3.5, truckloads := .undefined })) ∧
    (run Sys.init noMetricsTrace).map (fun sys =>
        sys.state.report.map Report.metrics) = some (some .undefined) :=
  ⟨rfl, rfl⟩

/-- C4 (as amended). An analysis is started by a click on the enabled analyze button,
any sequence of other events follows while it is in flight (file and date changes,
history responses, clicks on history rows and view tabs), and then the request fails.
The failure can then be handled; after it `loading` is false, an alert with the reason
was raised, and `report` is what it was just before the failure: absent when no history
row was clicked meanwhile, and otherwise absent or the report built from a history
item. -/
theorem analyze_failure_outcome (a b : Sys) (ops : List Event) (message : String)
    (hen : analyzeDisabled a.state = false)
    (hops : ops.all Event.isOther = true)
    (hrun : run a (.clickAnalyze :: ops) = some b) :
    ∃ c, step b (.analyzeRejected message) = some c ∧
      c.state = { b.state with loading := false } ∧
      c.state.loading = false ∧
      c.state.report = b.state.report ∧
      c.log = b.log ++ [.alert ("Analysis Failed: " ++ message)] ∧
      (ops.any Event.isRowClick = false → c.state.report = none) ∧
      (c.state.report = none ∨ ∃ item, c.state.report = some (reportOfHistory item)) := by
  rw [run_cons] at hrun
  simp only [step, Option.some_bind] at hrun
  have hops' : ∀ e ∈ ops, e.isOther = true := by
    simpa [List.all_eq_true] using hops
  obtain ⟨hp, _, hr, hn⟩ := run_other ops _ b hrun hops'
  simp only [analyzeDisabled, Bool.or_eq_false_iff] at hen
  obtain ⟨hf, hl⟩ := hen
  cases hfile : a.state.file with
  | none => simp [hfile] at hf
  | some f =>
    have hstart : (a.emit (clickAnalyze a.state)).state.report = none := by
      simp [Sys.emit, clickAnalyze, analyzeDisabled, hfile, hl, handleAnalyze]
    have hpend : (a.emit (clickAnalyze a.state)).pendingAnalyze = a.pendingAnalyze + 1 := by
      simp [Sys.emit, clickAnalyze, analyzeDisabled, hfile, hl, handleAnalyze,
        isAnalyze_uploadFile]
    rw [hstart] at hr hn
    rw [hpend] at hp
    refine ⟨Sys.emit { b with pendingAnalyze := b.pendingAnalyze - 1 }
      (handleAnalyzeRejected b.state message), by simp [step, hp], rfl, rfl, rfl, rfl, hn, ?_⟩
    rcases hr with hr | hr
    · exact .inl hr
    · exact .inr hr

theorem analyze_failure_outcome_witness :
    analyzeDisabled readySys.state = false ∧
    run readySys [.clickAnalyze, .startDateChange "2024-02-01"] ≠ none ∧
    ∃ c, step
        { state := { readySys.state with loading := true, startDate := "2024-02-01" },
          pendingAnalyze := 1, pendingHistory := 0,
          log := [.request fetchHistory,
                  .request (uploadFile siteKml "2024-01-01" "2024-04-30")] }
        (.analyzeRejected "Network Error") = some c ∧
      c.state.loading = false ∧ c.state.report = none := by
  refine ⟨by decide, by decide, ?_⟩
  obtain ⟨c, h1, _, h3, _, _, h6, _⟩ :=
    analyze_failure_outcome readySys
      { state := { readySys.state with loading := true, startDate := "2024-02-01" },
        pendingAnalyze := 1, pendingHistory := 0,
        log := [.request fetchHistory,
                .request (uploadFile siteKml "2024-01-01" "2024-04-30")] }
      [.startDateChange "2024-02-01"] "Network Error" (by decide) (by decide) (by decide)
  exact ⟨c, h1, h3, h6 (by decide)⟩

/-- C4, counterexample. An analysis is started, the first history row is clicked while
it is in flight, and the request fails: after the failure is handled `loading` is false
but `report` is the report built from that history item, not absent. -/
theorem failure_keeps_history_report :
    (run Sys.init (busyTrace ++ [.analyzeRejected "Network Error"])).map
        (fun sys => (sys.state.loading, sys.state.report)) =
      some (false, some (reportOfHistory entryH1)) ∧
    reportOfHistory entryH1 =
      { status := .val "success", job_id := .val "H1",
        metrics := .val
          { illegal_area_m2 := .val 10, volume_m3 := .val 20,
            avg_depth_m := .val 2, truckloads := .val 3 },
        urls := .val
          { report := .val "h.pdf", map := .val "h.html", model3d := .val "h3d.html" } } := by
  decide

/-- C10. `activeView` is `"3d"` in the initial state; every event changes it as
`viewAfter` says, that is a click on a view tab sets it to the tab's value and every
other event (start of an analysis, its success or failure, a history response or its
failure, a click on a history row, a file or date change) leaves it unchanged; so in
every reachable state it is the value of the most recent tab click, or `"3d"` when
there was none, and it is one of `"3d"`, `"2d"`, `"pdf"`. -/
theorem activeView_lifecycle (evs : List Event) (sys : Sys)
    (h : run Sys.init evs = some sys) :
    Sys.init.state.activeView = "3d" ∧
    (∀ (a b : Sys) (e : Event), step a e = some b →
      b.state.activeView = viewAfter a.state.activeView e) ∧
    (∀ (a b : Sys) (e : Event), step a e = some b → (∀ t, e ≠ .clickTab t) →
      b.state.activeView = a.state.activeView) ∧
    sys.state.activeView = evs.foldl viewAfter "3d" ∧
    sys.state.activeView ∈ ["3d", "2d", "pdf"] := by
  have hv := run_activeView evs _ _ h
  refine ⟨rfl, step_activeView, ?_, hv, ?_⟩
  · intro a b e hs hne
    rw [step_activeView a b e hs]
    cases e <;> first | rfl | exact absurd rfl (hne _)
  · rw [hv]
    exact foldl_viewAfter_mem evs _ (by decide)

theorem activeView_lifecycle_witness :
    (run Sys.init tabTrace).map (fun sys => sys.state.activeView) = some "2d" ∧
    tabTrace.foldl viewAfter "3d" = "2d" := by
  refine ⟨by decide, ?_⟩
  cases hr : run Sys.init tabTrace with
  | none => exact absurd hr (by decide)
  | some sys =>
    have h := (activeView_lifecycle tabTrace sys hr).2.2.2.1
    have h2 : (run Sys.init tabTrace).map (fun sys => sys.state.activeView) = some "2d" := by
      decide
    rw [hr] at h2
    simp only [Option.map_some', Option.some.injEq] at h2
    rw [← h, h2]

end Mineguard
